import Mathlib

/-!
# Verification of the mobile primitive-operation registry

Shallow embedding of `torch/csrc/jit/mobile/prim_ops_registery.h`:
a process-wide table mapping operation names to handlers, with
`registerPrimOpsFunction` (insert), `hasPrimOpsFn` (membership query) and
`getPrimOpsFn` (lookup).  Only the header (declarations) is present in the
source tree; the defining translation unit is absent, so the table's
behaviour is modelled from the specification: a name-keyed associative
table with exact-name lookup, last-registration-wins overwrite, and a
`NotFoundError` signalled on lookup of an unregistered name.

Handlers (`std::function<void(Stack&)>`) are kept as an abstract type
parameter `H`; where a claim talks about invoking a handler on a stack we
instantiate `H` with functions `List V → List V` on an operand stack of
dynamically-tagged values `V`.
-/

namespace PrimOpsRegistry

/-- Modelled from the spec: the defining translation unit
(`prim_ops_registery.cpp`) is not in the source tree, only the header.
Per §3/§4 of the spec the registry is a mapping from operation name to
operation handler with keys unique under exact-name match.  We embed it
as an association list in which the most recent registration of a name
shadows all earlier entries for that name. -/
structure Registry (H : Type) where
  entries : List (String × H)

/-- The registry before any registration has occurred. -/
def Registry.empty {H : Type} : Registry H := ⟨[]⟩

/-- Exact-name search of the association list: the first (most recently
registered) entry for the name wins. -/
def lookupEntry {H : Type} (name : String) : List (String × H) → Option H
  | [] => none
  | (n, f) :: rest => if n = name then some f else lookupEntry name rest

/-- Modelled from the spec: `registerPrimOpsFunction(name, fn)` inserts
`fn` under key `name`; the reference behaviour on a duplicate name is
silent overwrite ("last registration wins"), obtained here by prepending
the new binding so it shadows any earlier one. -/
def registerPrimOpsFunction {H : Type} (name : String) (fn : H)
    (r : Registry H) : Registry H :=
  ⟨(name, fn) :: r.entries⟩

/-- Modelled from the spec: `hasPrimOpsFn(name)` is a pure query, true
iff an entry for exactly `name` is present. -/
def hasPrimOpsFn {H : Type} (name : String) (r : Registry H) : Bool :=
  (lookupEntry name r.entries).isSome

/-- The error taxonomy of the spec's §7 relevant to lookup: a name that
was never registered yields `NotFoundError`. -/
inductive PrimOpsError where
  | notFound (name : String)
deriving DecidableEq, Repr

/-- Modelled from the spec: `getPrimOpsFn(name)` returns the stored
handler for `name`, and signals `NotFoundError` to the caller when `name`
was never registered (never a default-constructed or null handler). -/
def getPrimOpsFn {H : Type} (name : String) (r : Registry H) :
    Except PrimOpsError H :=
  match lookupEntry name r.entries with
  | some fn => Except.ok fn
  | none => Except.error (PrimOpsError.notFound name)

/-- The registry's only mutating operation is registration; traces of
such operations model the process history of `register` calls made by the
independent operation providers. -/
inductive RegOp (H : Type) where
  | reg (name : String) (fn : H)

/-- The name under which a trace operation registers its handler. -/
def RegOp.opName {H : Type} : RegOp H → String
  | RegOp.reg n _ => n

/-- Apply one registration from the trace to the table. -/
def applyOp {H : Type} : RegOp H → Registry H → Registry H
  | RegOp.reg n f, r => registerPrimOpsFunction n f r

/-- Run a trace of registrations, oldest first. -/
def runOps {H : Type} : List (RegOp H) → Registry H → Registry H
  | [], r => r
  | op :: ops, r => runOps ops (applyOp op r)

/-- Modelled from the spec: `getPrimOpsFn` returns a non-const reference
(`std::function<void(Stack&)>&`, per the header) into the stored handler,
so assigning a new callable through that reference replaces, in place,
the very entry the lookup resolved to. -/
def assignThroughLookup {H : Type} (name : String) (g : H) :
    List (String × H) → List (String × H)
  | [] => []
  | (n, f) :: rest =>
      if n = name then (n, g) :: rest
      else (n, f) :: assignThroughLookup name g rest

/-- Assignment through the reference returned by `getPrimOpsFn name`,
as a transformation of the registry. -/
def Registry.assignViaGet {H : Type} (name : String) (g : H)
    (r : Registry H) : Registry H :=
  ⟨assignThroughLookup name g r.entries⟩

/- ### Basic lemmas about the embedding -/

theorem lookupEntry_cons {H : Type} (name n : String) (f : H)
    (rest : List (String × H)) :
    lookupEntry name ((n, f) :: rest)
      = if n = name then some f else lookupEntry name rest := rfl

theorem getPrimOpsFn_register_self {H : Type} (name : String) (fn : H)
    (r : Registry H) :
    getPrimOpsFn name (registerPrimOpsFunction name fn r) = Except.ok fn := by
  simp [getPrimOpsFn, registerPrimOpsFunction, lookupEntry]

theorem hasPrimOpsFn_register_self {H : Type} (name : String) (fn : H)
    (r : Registry H) :
    hasPrimOpsFn name (registerPrimOpsFunction name fn r) = true := by
  simp [hasPrimOpsFn, registerPrimOpsFunction, lookupEntry]

theorem getPrimOpsFn_register_other {H : Type} (name n : String) (fn : H)
    (r : Registry H) (h : n ≠ name) :
    getPrimOpsFn name (registerPrimOpsFunction n fn r)
      = getPrimOpsFn name r := by
  simp [getPrimOpsFn, registerPrimOpsFunction, lookupEntry, h]

theorem hasPrimOpsFn_register_other {H : Type} (name n : String) (fn : H)
    (r : Registry H) (h : n ≠ name) :
    hasPrimOpsFn name (registerPrimOpsFunction n fn r)
      = hasPrimOpsFn name r := by
  simp [hasPrimOpsFn, registerPrimOpsFunction, lookupEntry, h]

theorem getPrimOpsFn_runOps_avoid {H : Type} (n : String)
    (ops : List (RegOp H)) (r : Registry H)
    (h : ∀ op ∈ ops, RegOp.opName op ≠ n) :
    getPrimOpsFn n (runOps ops r) = getPrimOpsFn n r := by
  induction ops generalizing r with
  | nil => rfl
  | cons op ops ih =>
    cases op with
    | reg m f =>
      have hm : m ≠ n := h _ (List.mem_cons_self _ _)
      rw [runOps, applyOp, ih _ (fun o ho => h o (List.mem_cons_of_mem _ ho)),
        getPrimOpsFn_register_other n m f r hm]

theorem hasPrimOpsFn_mono_register {H : Type} (n m : String) (f : H)
    (r : Registry H) (h : hasPrimOpsFn n r = true) :
    hasPrimOpsFn n (registerPrimOpsFunction m f r) = true := by
  by_cases hm : m = n
  · subst hm; exact hasPrimOpsFn_register_self m f r
  · rw [hasPrimOpsFn_register_other n m f r hm]; exact h

theorem hasPrimOpsFn_mono_runOps {H : Type} (n : String)
    (ops : List (RegOp H)) (r : Registry H)
    (h : hasPrimOpsFn n r = true) :
    hasPrimOpsFn n (runOps ops r) = true := by
  induction ops generalizing r with
  | nil => exact h
  | cons op ops ih =>
    cases op with
    | reg m f => exact ih _ (hasPrimOpsFn_mono_register n m f r h)

theorem hasPrimOpsFn_runOps_iff {H : Type} (n : String)
    (ops : List (RegOp H)) (r : Registry H) :
    hasPrimOpsFn n (runOps ops r) = true
      ↔ (∃ fn : H, RegOp.reg n fn ∈ ops) ∨ hasPrimOpsFn n r = true := by
  induction ops generalizing r with
  | nil => simp [runOps]
  | cons op ops ih =>
    cases op with
    | reg m f =>
      rw [runOps, applyOp, ih]
      by_cases hm : m = n
      · subst hm
        simp [hasPrimOpsFn_register_self]
      · have hnm : n ≠ m := fun e => hm e.symm
        rw [hasPrimOpsFn_register_other n m f r hm]
        simp [List.mem_cons, RegOp.reg.injEq, hnm]

theorem lookupEntry_assignThroughLookup {H : Type} (n : String) (g : H)
    (l : List (String × H)) (h : (lookupEntry n l).isSome = true) :
    lookupEntry n (assignThroughLookup n g l) = some g := by
  induction l with
  | nil => simp [lookupEntry] at h
  | cons p l ih =>
    obtain ⟨m, f⟩ := p
    by_cases hm : m = n
    · simp [assignThroughLookup, lookupEntry, hm]
    · simp [assignThroughLookup, lookupEntry, hm] at h ⊢
      exact ih h

/- ### Claims -/

/-- C1: for every non-empty name `n` and handler `h`, after
`registerPrimOpsFunction n h` returns, `hasPrimOpsFn n` is true and
`getPrimOpsFn n` yields `h`. -/
theorem C1_register_then_lookup {H : Type} (n : String) (h : H)
    (r : Registry H) (hn : n ≠ "") :
    hasPrimOpsFn n (registerPrimOpsFunction n h r) = true ∧
      getPrimOpsFn n (registerPrimOpsFunction n h r) = Except.ok h :=
  ⟨hasPrimOpsFn_register_self n h r, getPrimOpsFn_register_self n h r⟩

/-- Witness for C1 at name `"aten::add"`, handler `0`, empty registry. -/
theorem C1_register_then_lookup_witness :
    hasPrimOpsFn "aten::add"
        (registerPrimOpsFunction "aten::add" (0 : Nat) Registry.empty) = true ∧
      getPrimOpsFn "aten::add"
        (registerPrimOpsFunction "aten::add" (0 : Nat) Registry.empty)
        = Except.ok 0 :=
  C1_register_then_lookup "aten::add" 0 Registry.empty (by decide)

/-- C3: duplicate registration is last-registration-wins: after
registering `n` with `h1` and then with `h2`, lookup of `n` yields `h2`;
no error is signalled and the entry is a single well-defined binding. -/
theorem C3_duplicate_overwrite {H : Type} (n : String) (h1 h2 : H)
    (r : Registry H) :
    getPrimOpsFn n
        (registerPrimOpsFunction n h2 (registerPrimOpsFunction n h1 r))
      = Except.ok h2 :=
  getPrimOpsFn_register_self n h2 _

/-- C9: the registry performs no validation of the non-empty-name
precondition: registering the empty-string name succeeds and behaves
exactly as any other name. -/
theorem C9_empty_name_accepted {H : Type} (h : H) (r : Registry H) :
    hasPrimOpsFn "" (registerPrimOpsFunction "" h r) = true ∧
      getPrimOpsFn "" (registerPrimOpsFunction "" h r) = Except.ok h :=
  ⟨hasPrimOpsFn_register_self "" h r, getPrimOpsFn_register_self "" h r⟩

/-- C2: for every name `n` that was never passed to any register call in
the trace, `getPrimOpsFn n` signals `NotFoundError` to the caller, never
a default or wrong handler. -/
theorem C2_unregistered_lookup_not_found {H : Type} (n : String)
    (ops : List (RegOp H))
    (h : ∀ op ∈ ops, RegOp.opName op ≠ n) :
    getPrimOpsFn n (runOps ops Registry.empty)
      = Except.error (PrimOpsError.notFound n) := by
  rw [getPrimOpsFn_runOps_avoid n ops Registry.empty h]; rfl

/-- Witness for C2: looking up `"nonexistent_op"` after a trace that
registered only `"aten::add"` yields `NotFoundError`. -/
theorem C2_unregistered_lookup_not_found_witness :
    getPrimOpsFn "nonexistent_op"
        (runOps [RegOp.reg "aten::add" (0 : Nat)] Registry.empty)
      = Except.error (PrimOpsError.notFound "nonexistent_op") :=
  C2_unregistered_lookup_not_found "nonexistent_op"
    [RegOp.reg "aten::add" (0 : Nat)] (by decide)

/-- C4 counterexample: the claim says every subsequent lookup for the
remainder of the process returns the same handler as the first lookup
after registration; but after `register "a" 0` the first lookup yields
`0`, and once `register "a" 1` overwrites it a later lookup yields `1`,
a different result. -/
theorem C4_counterexample :
    getPrimOpsFn "a"
        (registerPrimOpsFunction "a" (1 : Nat)
          (registerPrimOpsFunction "a" (0 : Nat) Registry.empty))
      ≠ getPrimOpsFn "a"
          (registerPrimOpsFunction "a" (0 : Nat) Registry.empty) := by
  simp [getPrimOpsFn, registerPrimOpsFunction, lookupEntry, Registry.empty]

/-- C4 amended: once `n` is registered, every later lookup yields the
registered handler as long as no further registration of `n` intervenes
(a later overwrite of `n` changes it), and presence is one-directional:
a name present in the table stays present under every further operation
of the registry (no operation removes an entry). -/
theorem C4_amended_stable_and_monotone {H : Type} (n : String) (fn : H)
    (r r' : Registry H) (ops ops' : List (RegOp H))
    (h : ∀ op ∈ ops, RegOp.opName op ≠ n)
    (h' : hasPrimOpsFn n r' = true) :
    getPrimOpsFn n (runOps ops (registerPrimOpsFunction n fn r))
        = Except.ok fn
    ∧ hasPrimOpsFn n (runOps ops' r') = true := by
  constructor
  · rw [getPrimOpsFn_runOps_avoid n ops _ h]
    exact getPrimOpsFn_register_self n fn r
  · exact hasPrimOpsFn_mono_runOps n ops' r' h'

/-- Witness for the amended C4: `"aten::add"` registered with handler
`0`, followed by a registration of the distinct name `"aten::sub"`, still
looks up to `0`; and `"aten::add"` stays present under a further trace. -/
theorem C4_amended_stable_and_monotone_witness :
    getPrimOpsFn "aten::add"
        (runOps [RegOp.reg "aten::sub" (1 : Nat)]
          (registerPrimOpsFunction "aten::add" (0 : Nat) Registry.empty))
        = Except.ok 0
    ∧ hasPrimOpsFn "aten::add"
        (runOps [RegOp.reg "aten::mul" (2 : Nat)]
          (registerPrimOpsFunction "aten::add" (0 : Nat) Registry.empty))
        = true :=
  C4_amended_stable_and_monotone "aten::add" 0 Registry.empty
    (registerPrimOpsFunction "aten::add" (0 : Nat) Registry.empty)
    [RegOp.reg "aten::sub" (1 : Nat)] [RegOp.reg "aten::mul" (2 : Nat)]
    (by decide) (by decide)

/-- C5: `hasPrimOpsFn n` is a pure Boolean query of the table (it is a
function of the registry value and mutates nothing), and over any trace
of register calls starting from the empty registry it is true iff some
register call in the trace used exactly the name `n`. -/
theorem C5_hasEntry_iff_registered {H : Type} (n : String)
    (ops : List (RegOp H)) :
    hasPrimOpsFn n (runOps ops Registry.empty) = true
      ↔ ∃ fn : H, RegOp.reg n fn ∈ ops := by
  rw [hasPrimOpsFn_runOps_iff]
  simp [hasPrimOpsFn, Registry.empty, lookupEntry]

/-- C6: registrations under distinct names commute and do not disturb
each other's entries: in either order of registration, each name looks
up to its own handler. -/
theorem C6_distinct_names_commute {H : Type} (n1 n2 : String) (h1 h2 : H)
    (r : Registry H) (hne : n1 ≠ n2) :
    getPrimOpsFn n1
        (registerPrimOpsFunction n2 h2 (registerPrimOpsFunction n1 h1 r))
        = Except.ok h1
    ∧ getPrimOpsFn n2
        (registerPrimOpsFunction n2 h2 (registerPrimOpsFunction n1 h1 r))
        = Except.ok h2
    ∧ getPrimOpsFn n1
        (registerPrimOpsFunction n1 h1 (registerPrimOpsFunction n2 h2 r))
        = Except.ok h1
    ∧ getPrimOpsFn n2
        (registerPrimOpsFunction n1 h1 (registerPrimOpsFunction n2 h2 r))
        = Except.ok h2 := by
  refine ⟨?_, ?_, ?_, ?_⟩
  · rw [getPrimOpsFn_register_other n1 n2 h2 _ (Ne.symm hne)]
    exact getPrimOpsFn_register_self n1 h1 r
  · exact getPrimOpsFn_register_self n2 h2 _
  · exact getPrimOpsFn_register_self n1 h1 _
  · rw [getPrimOpsFn_register_other n2 n1 h1 _ hne]
    exact getPrimOpsFn_register_self n2 h2 r

/-- Witness for C6 at the distinct names `"aten::add"`, `"aten::sub"`. -/
theorem C6_distinct_names_commute_witness :
    getPrimOpsFn "aten::add"
        (registerPrimOpsFunction "aten::sub" (1 : Nat)
          (registerPrimOpsFunction "aten::add" (0 : Nat) Registry.empty))
        = Except.ok 0
    ∧ getPrimOpsFn "aten::sub"
        (registerPrimOpsFunction "aten::sub" (1 : Nat)
          (registerPrimOpsFunction "aten::add" (0 : Nat) Registry.empty))
        = Except.ok 1
    ∧ getPrimOpsFn "aten::add"
        (registerPrimOpsFunction "aten::add" (0 : Nat)
          (registerPrimOpsFunction "aten::sub" (1 : Nat) Registry.empty))
        = Except.ok 0
    ∧ getPrimOpsFn "aten::sub"
        (registerPrimOpsFunction "aten::add" (0 : Nat)
          (registerPrimOpsFunction "aten::sub" (1 : Nat) Registry.empty))
        = Except.ok 1 :=
  C6_distinct_names_commute "aten::add" "aten::sub" 0 1 Registry.empty
    (by decide)

/-- C7: after a single registration of `n` with handler `fn` and no
further registration of `n`, any two lookups of `n` yield the same stored
handler, so invoking the two lookup results on equal stack contents
produces equal stack mutations (referential stability of the stored
handler). Handlers are embedded as stack transformers `List V → List V`. -/
theorem C7_lookup_referentially_stable {V : Type} (n : String)
    (fn : List V → List V) (r : Registry (List V → List V))
    (ops : List (RegOp (List V → List V))) (s : List V)
    (h : ∀ op ∈ ops, RegOp.opName op ≠ n)
    (f₁ f₂ : List V → List V)
    (h₁ : getPrimOpsFn n (runOps ops (registerPrimOpsFunction n fn r))
            = Except.ok f₁)
    (h₂ : getPrimOpsFn n (runOps ops (registerPrimOpsFunction n fn r))
            = Except.ok f₂) :
    f₁ = f₂ ∧ f₁ s = f₂ s := by
  have e : f₁ = f₂ := Except.ok.inj (h₁.symm.trans h₂)
  exact ⟨e, by rw [e]⟩

/-- Witness for C7: the handler pushing `7` onto a stack of naturals,
registered under `"aten::add"`, looked up twice and applied to `[3, 4]`. -/
theorem C7_lookup_referentially_stable_witness :
    (fun s : List Nat => 7 :: s) = (fun s : List Nat => 7 :: s)
    ∧ (fun s : List Nat => 7 :: s) [3, 4]
        = (fun s : List Nat => 7 :: s) [3, 4] :=
  C7_lookup_referentially_stable "aten::add" (fun s => 7 :: s)
    Registry.empty [] [3, 4] (by simp)
    (fun s => 7 :: s) (fun s => 7 :: s) rfl rfl

/-- C10: `getPrimOpsFn` returns a non-const reference into the stored
handler (header return type `std::function<void(Stack&)>&`): for every
registered name `n`, assigning a new callable through that reference
replaces the stored handler, and every subsequent lookup of `n` yields
the newly assigned callable. -/
theorem C10_assign_through_lookup {H : Type} (n : String) (g : H)
    (r : Registry H) (h : hasPrimOpsFn n r = true) :
    getPrimOpsFn n (Registry.assignViaGet n g r) = Except.ok g := by
  unfold getPrimOpsFn Registry.assignViaGet
  rw [lookupEntry_assignThroughLookup n g r.entries h]

/-- Witness for C10: after registering `"aten::add"` with handler `0`,
assigning `1` through the lookup reference makes lookup yield `1`. -/
theorem C10_assign_through_lookup_witness :
    getPrimOpsFn "aten::add"
        (Registry.assignViaGet "aten::add" (1 : Nat)
          (registerPrimOpsFunction "aten::add" (0 : Nat) Registry.empty))
      = Except.ok 1 :=
  C10_assign_through_lookup "aten::add" 1
    (registerPrimOpsFunction "aten::add" (0 : Nat) Registry.empty)
    (by decide)

end PrimOpsRegistry
